import Mathlib

/-!
A shallow embedding of the review and rating subsystem of the api_yamdb
repository (reviews/models.py, reviews/validators.py, api/serializers.py,
api/views.py, api/permissions.py), with proofs about the specification.

Conventions used throughout: database tables are lists of rows, primary
keys are natural numbers, and a review score is a natural number (the
score column is a PositiveSmallIntegerField, whose database check
constraint forbids negative values).  The rating column of a title is an
Option Int, because Title.rating is declared models.IntegerField(null=True)
in reviews/models.py lines 106-108: when Django persists the float average
assigned by Title.compute_rating, IntegerField.get_prep_value applies the
Python int() conversion, so the committed column value is the truncated
mean.  All means here are nonnegative, so truncation and floor agree.
-/

namespace YamDb

/-- User roles (reviews/constants.py, RoleChoices). -/
inductive Role
  | user
  | moderator
  | admin
  deriving DecidableEq, Repr

/-- An actor, with exactly the fields the permission classes and the user
model read (reviews/models.py User, lines 16-64, and request.user). -/
structure User where
  id : Nat
  role : Role
  is_superuser : Bool
  is_staff : Bool
  is_authenticated : Bool
  deriving DecidableEq, Repr

/-- User.is_admin (reviews/models.py lines 53-56): role is admin, or the
elevated superuser/staff flags. -/
def User.is_admin (u : User) : Bool :=
  u.role == Role.admin || u.is_superuser || u.is_staff

/-- User.is_moderator (reviews/models.py lines 58-61): role is moderator,
or is_admin. -/
def User.is_moderator (u : User) : Bool :=
  u.role == Role.moderator || u.is_admin

/-- A persisted Title row (reviews/models.py lines 101-126).  The genres
many-to-many join table is omitted: no claim mentions genres.  The rating
column is an integer column (IntegerField, null=True), see the module
comment. -/
structure Title where
  id : Nat
  name : String
  year : Int
  rating : Option Int
  description : Option String
  category : Option Nat
  deriving DecidableEq, Repr

/-- A persisted Review row (reviews/models.py lines 137-163). -/
structure Review where
  id : Nat
  titleId : Nat
  authorId : Nat
  text : String
  score : Nat
  deriving DecidableEq, Repr

/-- A persisted Comment row (reviews/models.py lines 176-192). -/
structure Comment where
  id : Nat
  reviewId : Nat
  authorId : Nat
  text : String
  deriving DecidableEq, Repr

/-- The relational state: the three tables the claims are about. -/
structure DB where
  titles : List Title
  reviews : List Review
  comments : List Comment
  deriving DecidableEq, Repr

/-- title.reviews.all(): the reviews attached to a title through the
Review.title foreign key (reviews/models.py lines 138-143). -/
def reviewsOf (rs : List Review) (tid : Nat) : List Review :=
  rs.filter (fun r => r.titleId == tid)

/-- aggregate(Avg(score)): none on an empty queryset, otherwise the exact
arithmetic mean of the scores. -/
def avgScore (rs : List Review) : Option ℚ :=
  if rs.isEmpty then none
  else some (((rs.map (fun r => (r.score : ℚ))).sum) / (rs.length : ℚ))

/-- The Python int() conversion that IntegerField.get_prep_value applies
when the assigned average is persisted into the integer rating column.
On a normalized rational this is num/den in integer division; every mean
in this development is nonnegative, where truncation and floor agree. -/
def ratFloor (q : ℚ) : Int :=
  q.num / (q.den : Int)

/-- Title.compute_rating (reviews/models.py lines 131-135): recompute the
average of the related review scores and save it; the saved column value
passes through the int() conversion of the IntegerField column. -/
def Title.compute_rating (t : Title) (rs : List Review) : Title :=
  { t with rating := (avgScore (reviewsOf rs t.id)).map ratFloor }

/-- Persist the recomputed rating of the title with the given id (the
self.save() inside Title.compute_rating). -/
def recompute (db : DB) (tid : Nat) : DB :=
  { db with
    titles := db.titles.map (fun t =>
      if t.id == tid then t.compute_rating db.reviews else t) }

/-- The error outcomes of the embedded request pipelines.  invalidValue is
a 400 ValidationError, internalTypeError is an uncaught Python exception
(TypeError or AttributeError) surfacing as a server error. -/
inductive ApiError
  | duplicateReview
  | permissionDenied
  | notFound
  | invalidValue
  | internalTypeError
  deriving DecidableEq, Repr

/-- reviews/validators.py validate_year (lines 21-24).  Defined in the
repository but attached to no field: Title.year carries no validators. -/
def validate_year (currentYear year : Int) : Except ApiError Unit :=
  if year > currentYear then .error .invalidValue else .ok ()

/-- reviews/validators.py validate_score (lines 27-31).  Defined in the
repository but attached to no field: Review.score carries no validators. -/
def validate_score (score : Nat) : Except ApiError Unit :=
  if 1 ≤ score ∧ score ≤ 10 then .ok () else .error .invalidValue

/-- The only score bound the review write path actually enforces: the DRF
serializer field derived from the bare PositiveSmallIntegerField
(reviews/models.py lines 151-153) bounds the value to 0..32767.  The lower
bound 0 is carried by the Nat type of the embedded score. -/
def scoreFieldOk (score : Nat) : Bool :=
  score ≤ 32767

/-- The only year bound the title write path actually enforces: the DRF
serializer field derived from the bare PositiveIntegerField
(reviews/models.py line 105) requires a nonnegative value. -/
def yearFieldOk (year : Int) : Bool :=
  0 ≤ year

/-- Review.save on a new review (reviews/models.py lines 165-167): insert
the row, then call title.compute_rating. -/
def review_save_new (db : DB) (r : Review) : DB :=
  recompute { db with reviews := db.reviews ++ [r] } r.titleId

/-- Review.save on an existing review (reviews/models.py lines 165-167):
update the mutable columns (score and text; title, author and pub_date are
read only in the serializer), then call title.compute_rating. -/
def review_save_edit (db : DB) (rid : Nat) (score : Nat) (text : String) : DB :=
  match db.reviews.find? (fun r => r.id == rid) with
  | none => db
  | some r =>
    recompute
      { db with reviews := db.reviews.map (fun x =>
          if x.id == rid then { x with score := score, text := text } else x) }
      r.titleId

/-- Review.delete (reviews/models.py lines 169-172): capture the owning
title, delete the row, then call title.compute_rating. -/
def review_delete (db : DB) (rid : Nat) : DB :=
  match db.reviews.find? (fun r => r.id == rid) with
  | none => db
  | some r =>
    recompute
      { db with reviews := db.reviews.filter (fun x => x.id != rid) }
      r.titleId

/-- Title deletion: the on_delete=CASCADE foreign keys (reviews/models.py
lines 138-143 and 176-179) remove the reviews of the title and the
comments of those reviews in the same database cascade. -/
def delete_title (db : DB) (tid : Nat) : DB :=
  { titles := db.titles.filter (fun t => t.id != tid),
    reviews := db.reviews.filter (fun r => r.titleId != tid),
    comments := db.comments.filter (fun c =>
      !(db.reviews.any (fun r => r.id == c.reviewId && r.titleId == tid))) }

/-- User deletion: the on_delete=CASCADE author foreign keys
(reviews/models.py lines 144-149 and 180-182) bulk-delete the reviews and
comments the user authored.  The Django cascade collector issues raw
deletes and never calls the overridden Review.delete, so no
compute_rating runs: the titles table, ratings included, is untouched. -/
def delete_user_cascade (db : DB) (uid : Nat) : DB :=
  { titles := db.titles,
    reviews := db.reviews.filter (fun r => r.authorId != uid),
    comments := db.comments.filter (fun c =>
      c.authorId != uid &&
      !(db.reviews.any (fun r => r.id == c.reviewId && r.authorId == uid))) }

/-- The client-supplied body of a title write request, as the
TitleWriteSerializer fields declare it (api/serializers.py lines 51-73):
the rating field is present in the field list but declared read_only. -/
structure TitleInput where
  name : String
  year : Int
  description : Option String
  category : Option Nat
  rating : Option ℚ
  deriving DecidableEq, Repr

/-- Title creation through TitleWriteSerializer: the read_only rating
field never reaches validated_data, so the row is written with the model
default null in the rating column (reviews/models.py lines 106-108). -/
def title_create (db : DB) (tid : Nat) (inp : TitleInput) : DB :=
  { db with titles := db.titles ++
      [{ id := tid, name := inp.name, year := inp.year, rating := none,
         description := inp.description, category := inp.category }] }

/-- Title update through TitleWriteSerializer: the writable columns are
replaced; the read_only rating field is not part of validated_data and the
stored rating column keeps its previous value. -/
def title_update (db : DB) (tid : Nat) (inp : TitleInput) : DB :=
  { db with titles := db.titles.map (fun t =>
      if t.id == tid then
        { t with name := inp.name, year := inp.year,
                 description := inp.description, category := inp.category }
      else t) }

/-- The title create pipeline with the validation it actually performs:
only the nonnegativity bound of the year field.  No check against the
current year exists on any write path (validate_year is dead code). -/
def title_create_checked (db : DB) (tid : Nat) (inp : TitleInput) :
    Except ApiError DB :=
  if ¬ yearFieldOk inp.year then .error .invalidValue
  else .ok (title_create db tid inp)

/-- ReviewSerializer.validate (api/serializers.py lines 90-100).  The
serializer declares no title field, so data carries no title; on create
the serializer has no instance, and the expression
(data.get title) or self.instance.title dereferences None — an
AttributeError, embedded as internalTypeError.  On update the instance
supplies the title, the test (instance is None or instance.title != title)
compares the instance title with itself and is false, so the duplicate
branch is unreachable and validation succeeds. -/
def reviewSerializer_validate (db : DB) (inst : Option Review) (actor : User) :
    Except ApiError Unit :=
  match inst with
  | none => .error .internalTypeError
  | some r =>
    if (r.titleId != r.titleId) &&
       db.reviews.any (fun x => x.titleId == r.titleId && x.authorId == actor.id) then
      .error .duplicateReview
    else .ok ()

/-- The entries ReviewViewSet.get_permissions can return for a review
mutation (api/views.py lines 164-169).  The first entry of the mutation
list is the IsAuthorOrModerPermission CLASS itself — line 166 carries no
parentheses — not an instance. -/
inductive PermEntry
  | ownerOrReadOnlyInst
  | authorOrModerInst
  | authorOrModerCls
  deriving DecidableEq, Repr

/-- permission.has_permission as the DRF check loop calls it.  On the
un-instantiated class the unbound function is invoked with the wrong
arity, a TypeError.  IsOwnerOrReadOnly.has_permission
(api/permissions.py lines 5-6) allows safe methods or authenticated
actors; IsAuthorOrModerPermission.has_permission (lines 24-25) returns
true. -/
def runPerm (p : PermEntry) (safe : Bool) (actor : User) :
    Except ApiError Bool :=
  match p with
  | .authorOrModerCls => .error .internalTypeError
  | .ownerOrReadOnlyInst => .ok (safe || actor.is_authenticated)
  | .authorOrModerInst => .ok true

/-- permission.has_object_permission as DRF calls it on the fetched row.
IsOwnerOrReadOnly (api/permissions.py lines 8-11) allows safe methods or
the author; IsAuthorOrModerPermission (lines 27-35) allows safe methods,
the author, or an authenticated admin or moderator. -/
def runObjPerm (p : PermEntry) (safe : Bool) (actor : User) (authorId : Nat) :
    Except ApiError Bool :=
  match p with
  | .authorOrModerCls => .error .internalTypeError
  | .ownerOrReadOnlyInst => .ok (safe || actor.id == authorId)
  | .authorOrModerInst =>
      .ok (safe || actor.id == authorId ||
           (actor.is_authenticated && (actor.is_admin || actor.is_moderator)))

/-- The DRF check_permissions loop: every entry must run and answer true;
a raised exception propagates, a false answer is a PermissionDenied. -/
def checkPerms : List PermEntry → Bool → User → Except ApiError Unit
  | [], _, _ => .ok ()
  | p :: ps, safe, actor =>
    match runPerm p safe actor with
    | .error e => .error e
    | .ok true => checkPerms ps safe actor
    | .ok false => .error .permissionDenied

/-- The DRF check_object_permissions loop over the same entries. -/
def checkObjPerms : List PermEntry → Bool → User → Nat → Except ApiError Unit
  | [], _, _, _ => .ok ()
  | p :: ps, safe, actor, authorId =>
    match runObjPerm p safe actor authorId with
    | .error e => .error e
    | .ok true => checkObjPerms ps safe actor authorId
    | .ok false => .error .permissionDenied

/-- The permission list ReviewViewSet.get_permissions returns for the
mutation actions (api/views.py line 166): the class object followed by an
IsOwnerOrReadOnly instance. -/
def reviewMutatePerms : List PermEntry :=
  [.authorOrModerCls, .ownerOrReadOnlyInst]

/-- The POST review pipeline: IsAuthenticated (get_permissions, create
branch), DRF field validation from the model-derived bounds, then
ReviewSerializer.validate with no instance, then
ReviewViewSet.perform_create (api/views.py lines 171-179: 404 on a
missing title, duplicate existence check) and Review.save.  The
unique_together constraint on (title, author) (reviews/models.py line
160) backs the duplicate check at the storage layer. -/
def api_create_review (db : DB) (tid : Nat) (actor : User) (rid : Nat)
    (score : Nat) (text : String) : Except ApiError DB :=
  if ¬ actor.is_authenticated then .error .permissionDenied
  else if ¬ scoreFieldOk score then .error .invalidValue
  else match reviewSerializer_validate db none actor with
  | .error e => .error e
  | .ok _ =>
    if ¬ db.titles.any (fun t => t.id == tid) then .error .notFound
    else if db.reviews.any (fun r => r.titleId == tid && r.authorId == actor.id) then
      .error .duplicateReview
    else .ok (review_save_new db { id := rid, titleId := tid,
                                   authorId := actor.id, text := text,
                                   score := score })

/-- The PATCH review pipeline: check_permissions over the mutation
permission list, object fetch, check_object_permissions, field
validation, ReviewSerializer.validate on the instance, then
Review.save. -/
def api_patch_review (db : DB) (actor : User) (rid : Nat) (score : Nat)
    (text : String) : Except ApiError DB :=
  match checkPerms reviewMutatePerms false actor with
  | .error e => .error e
  | .ok _ =>
    match db.reviews.find? (fun r => r.id == rid) with
    | none => .error .notFound
    | some r =>
      match checkObjPerms reviewMutatePerms false actor r.authorId with
      | .error e => .error e
      | .ok _ =>
        if ¬ scoreFieldOk score then .error .invalidValue
        else match reviewSerializer_validate db (some r) actor with
        | .error e => .error e
        | .ok _ => .ok (review_save_edit db rid score text)

/-- The DELETE review pipeline: check_permissions, object fetch,
check_object_permissions, then Review.delete. -/
def api_destroy_review (db : DB) (actor : User) (rid : Nat) :
    Except ApiError DB :=
  match checkPerms reviewMutatePerms false actor with
  | .error e => .error e
  | .ok _ =>
    match db.reviews.find? (fun r => r.id == rid) with
    | none => .error .notFound
    | some r =>
      match checkObjPerms reviewMutatePerms false actor r.authorId with
      | .error e => .error e
      | .ok _ => .ok (review_delete db rid)

/-- The rating invariant the code maintains: every stored rating column
equals the truncated mean of the attached review scores, and is null when
no review is attached. -/
def ratingConsistent (db : DB) : Prop :=
  ∀ t ∈ db.titles, t.rating = (avgScore (reviewsOf db.reviews t.id)).map ratFloor

/-- Primary key integrity of the review table. -/
def reviewIdsUnique (db : DB) : Prop :=
  (db.reviews.map Review.id).Nodup

/-- Referential integrity: every review points at an existing title and
every comment points at an existing review. -/
def refIntact (db : DB) : Prop :=
  (∀ r ∈ db.reviews, ∃ t ∈ db.titles, t.id = r.titleId) ∧
  (∀ c ∈ db.comments, ∃ r ∈ db.reviews, r.id = c.reviewId)

/-- Concrete fixtures used by witnesses and counterexamples. -/
def exTitle : Title :=
  { id := 1, name := "Dune", year := 1965, rating := some 7,
    description := none, category := none }

def exTitleEmpty : Title :=
  { id := 1, name := "Dune", year := 1965, rating := none,
    description := none, category := none }

def exR1 : Review :=
  { id := 1, titleId := 1, authorId := 1, text := "good", score := 7 }

def exR2 : Review :=
  { id := 2, titleId := 1, authorId := 2, text := "great", score := 8 }

def exR3 : Review :=
  { id := 3, titleId := 1, authorId := 3, text := "fine", score := 6 }

/-- A state with one title and two reviews, scores 7 and 8; the stored
rating 7 is the truncated mean 15/2. -/
def exDb : DB :=
  { titles := [exTitle], reviews := [exR1, exR2], comments := [] }

/-- A state with one title and no reviews. -/
def exDb0 : DB :=
  { titles := [exTitleEmpty], reviews := [], comments := [] }

/-- The Scenario D state: one title, three reviews, five comments spread
over them. -/
def exDbD : DB :=
  { titles := [exTitle],
    reviews := [exR1, exR2, exR3],
    comments := [ { id := 1, reviewId := 1, authorId := 2, text := "c1" },
                  { id := 2, reviewId := 1, authorId := 3, text := "c2" },
                  { id := 3, reviewId := 2, authorId := 1, text := "c3" },
                  { id := 4, reviewId := 3, authorId := 1, text := "c4" },
                  { id := 5, reviewId := 3, authorId := 2, text := "c5" } ] }

/-- The author of review 1, an ordinary authenticated user. -/
def exU1 : User :=
  { id := 1, role := Role.user, is_superuser := false, is_staff := false,
    is_authenticated := true }

/-- An authenticated user with no review on title 1. -/
def exU3 : User :=
  { id := 3, role := Role.user, is_superuser := false, is_staff := false,
    is_authenticated := true }

/-- An authenticated moderator who authored nothing. -/
def exModer : User :=
  { id := 5, role := Role.moderator, is_superuser := false,
    is_staff := false, is_authenticated := true }

/-- A title write body with a year beyond the current year (2026). -/
def exFutureInp : TitleInput :=
  { name := "Future", year := 3000, description := none, category := none,
    rating := none }

/-- A review body with score 11, outside the documented 1..10 range. -/
def exR11 : Review :=
  { id := 3, titleId := 1, authorId := 3, text := "over", score := 11 }

theorem ratFloor_eq_floor (q : ℚ) : ratFloor q = ⌊q⌋ :=
  Rat.floor_def.symm

theorem ratFloor_natCast_div (n d : ℕ) :
    ratFloor ((n : ℚ) / (d : ℚ)) = ((n / d : ℕ) : Int) := by
  rw [ratFloor_eq_floor]
  exact_mod_cast Rat.floor_natCast_div_natCast n d

theorem scoreSum_cast (rs : List Review) :
    (rs.map (fun r => (r.score : ℚ))).sum =
      (((rs.map (fun r => r.score)).sum : ℕ) : ℚ) := by
  induction rs with
  | nil => simp
  | cons a l ih => simp [ih]

/-- Evaluating the stored rating column in natural-number arithmetic: the
floor of the mean of the scores is the integer quotient of their sum by
their count. -/
theorem avgScore_map_ratFloor (rs : List Review) :
    (avgScore rs).map ratFloor =
      if rs.isEmpty then none
      else some (((rs.map (fun r => r.score)).sum / rs.length : ℕ) : Int) := by
  unfold avgScore
  split
  · rfl
  · show some (ratFloor _) = _
    rw [scoreSum_cast, ratFloor_natCast_div]

theorem mem_reviewsOf {rs : List Review} {tid : Nat} {x : Review} :
    x ∈ reviewsOf rs tid ↔ x ∈ rs ∧ x.titleId = tid := by
  simp [reviewsOf]

theorem reviewsOf_append_one (rs : List Review) (r : Review) (tid : Nat) :
    reviewsOf (rs ++ [r]) tid =
      reviewsOf rs tid ++ (if r.titleId == tid then [r] else []) := by
  simp only [reviewsOf, List.filter_append, List.filter_cons, List.filter_nil]

theorem reviewsOf_map_keep_title (rs : List Review) (f : Review → Review)
    (hf : ∀ x, (f x).titleId = x.titleId) (tid : Nat) :
    reviewsOf (rs.map f) tid = (reviewsOf rs tid).map f := by
  induction rs with
  | nil => rfl
  | cons a l ih =>
    simp only [reviewsOf] at ih ⊢
    rw [List.map_cons, List.filter_cons, List.filter_cons, hf a]
    by_cases h : (a.titleId == tid) = true
    · rw [if_pos h, if_pos h, List.map_cons, ih]
    · rw [if_neg h, if_neg h, ih]

theorem reviewsOf_filter_comm (rs : List Review) (q : Review → Bool) (tid : Nat) :
    reviewsOf (rs.filter q) tid = (reviewsOf rs tid).filter q := by
  simp only [reviewsOf, List.filter_filter]
  exact List.filter_congr (fun x _ => by rw [Bool.and_comm])

/-- Two review lists with the same score multiset in the same order have
the same average. -/
theorem avgScore_congr (l1 l2 : List Review)
    (h : l1.map (fun r => r.score) = l2.map (fun r => r.score)) :
    avgScore l1 = avgScore l2 := by
  have hlen : l1.length = l2.length := by
    have := congrArg List.length h
    simpa using this
  have hempty : l1.isEmpty = l2.isEmpty := by
    cases l1 <;> cases l2 <;> simp_all
  have hsum : (l1.map (fun r => (r.score : ℚ))).sum =
      (l2.map (fun r => (r.score : ℚ))).sum := by
    rw [scoreSum_cast, scoreSum_cast, h]
  unfold avgScore
  rw [hempty, hsum, hlen]

/-- Primary-key integrity makes review lookup by id functional. -/
theorem eq_of_same_id {db : DB} (hu : reviewIdsUnique db) {x y : Review}
    (hx : x ∈ db.reviews) (hy : y ∈ db.reviews) (h : x.id = y.id) : x = y :=
  List.inj_on_of_nodup_map hu hx hy h

/-- The master preservation lemma: replacing the review table and
recomputing the rating of one title keeps the rating invariant, provided
the replacement left the review set of every other title unchanged. -/
theorem ratingConsistent_after (db : DB) (rs2 : List Review) (tid : Nat)
    (h : ratingConsistent db)
    (hframe : ∀ tid2, tid2 ≠ tid → reviewsOf rs2 tid2 = reviewsOf db.reviews tid2) :
    ratingConsistent (recompute { db with reviews := rs2 } tid) := by
  intro t ht
  simp only [recompute] at ht
  obtain ⟨t0, ht0, rfl⟩ := List.mem_map.1 ht
  show (if (t0.id == tid) = true then t0.compute_rating rs2 else t0).rating
      = Option.map ratFloor (avgScore (reviewsOf rs2
          (if (t0.id == tid) = true then t0.compute_rating rs2 else t0).id))
  by_cases hc : (t0.id == tid) = true
  · rw [if_pos hc]
    rfl
  · rw [if_neg hc]
    have hne : t0.id ≠ tid := by simpa using hc
    rw [hframe t0.id hne]
    exact h t0 ht0

/-- Review.save on a fresh review preserves the rating invariant. -/
theorem ratingConsistent_save_new (db : DB) (r : Review)
    (h : ratingConsistent db) :
    ratingConsistent (review_save_new db r) := by
  unfold review_save_new
  refine ratingConsistent_after db _ r.titleId h (fun tid2 hne => ?_)
  rw [reviewsOf_append_one]
  have : (r.titleId == tid2) = false := by
    simpa using fun hh => hne hh.symm
  simp [this]

/-- Review.save on an existing review preserves the rating invariant. -/
theorem ratingConsistent_save_edit (db : DB) (rid : Nat) (s : Nat)
    (txt : String) (h : ratingConsistent db) (hu : reviewIdsUnique db) :
    ratingConsistent (review_save_edit db rid s txt) := by
  unfold review_save_edit
  cases hf : db.reviews.find? (fun r => r.id == rid) with
  | none => exact h
  | some r =>
    have hrmem : r ∈ db.reviews := List.mem_of_find?_eq_some hf
    have hrid : r.id = rid := by simpa using List.find?_some hf
    refine ratingConsistent_after db _ r.titleId h (fun tid2 hne => ?_)
    rw [reviewsOf_map_keep_title _ _ (fun x => by split <;> rfl) tid2]
    have hfix : ∀ x ∈ reviewsOf db.reviews tid2,
        (if x.id == rid then { x with score := s, text := txt } else x) = x := by
      intro x hx
      obtain ⟨hxl, hxt⟩ := mem_reviewsOf.1 hx
      have hxr : x.id ≠ rid := fun hh =>
        hne (by rw [← hxt, eq_of_same_id hu hxl hrmem (hh.trans hrid.symm)])
      have hb : (x.id == rid) = false := beq_eq_false_iff_ne.2 hxr
      simp [hb]
    calc (reviewsOf db.reviews tid2).map
            (fun x => if x.id == rid then { x with score := s, text := txt } else x)
        = (reviewsOf db.reviews tid2).map (fun x => x) :=
          List.map_congr_left hfix
      _ = reviewsOf db.reviews tid2 := List.map_id' _

/-- Review.delete preserves the rating invariant. -/
theorem ratingConsistent_delete (db : DB) (rid : Nat)
    (h : ratingConsistent db) (hu : reviewIdsUnique db) :
    ratingConsistent (review_delete db rid) := by
  unfold review_delete
  cases hf : db.reviews.find? (fun r => r.id == rid) with
  | none => exact h
  | some r =>
    have hrmem : r ∈ db.reviews := List.mem_of_find?_eq_some hf
    have hrid : r.id = rid := by simpa using List.find?_some hf
    refine ratingConsistent_after db _ r.titleId h (fun tid2 hne => ?_)
    rw [reviewsOf_filter_comm]
    refine List.filter_eq_self.2 (fun x hx => ?_)
    obtain ⟨hxl, hxt⟩ := mem_reviewsOf.1 hx
    have hxr : x.id ≠ rid := fun hh =>
      hne (by rw [← hxt, eq_of_same_id hu hxl hrmem (hh.trans hrid.symm)])
    simpa using hxr

/-- C1, counterexample to the claim as stated.  Starting from a title with
no reviews and committing two review creations with scores 7 and 8, the
stored rating column holds 7, while the arithmetic mean of the attached
scores is 15/2: the stored rating does not equal the mean, because the
rating column is an IntegerField and the persisted value is truncated. -/
theorem C1_counterexample :
    (review_save_new (review_save_new exDb0 exR1) exR2).titles.map Title.rating
      = [some 7] ∧
    avgScore (reviewsOf (review_save_new (review_save_new exDb0 exR1) exR2).reviews 1)
      = some (15 / 2 : ℚ) ∧
    ¬ (((7 : Int) : ℚ) = (15 / 2 : ℚ)) := by
  refine ⟨?_, ?_, by norm_num⟩
  · simp only [review_save_new, recompute, Title.compute_rating,
      avgScore_map_ratFloor]
    decide
  · rw [show reviewsOf (review_save_new (review_save_new exDb0 exR1) exR2).reviews 1
        = [exR1, exR2] from rfl]
    simp [avgScore, exR1, exR2]
    norm_num

/-- C1, amended: after any committed review mutation (create, update or
delete through Review.save and Review.delete), the stored rating of every
title equals the truncation of the arithmetic mean of the scores of the
reviews currently attached to it when that set is non-empty, and is null
when the set is empty; in particular deleting the last review of a title
makes its stored rating null. -/
theorem C1_rating_consistency (db : DB) (h : ratingConsistent db)
    (hu : reviewIdsUnique db) :
    (∀ r, ratingConsistent (review_save_new db r)) ∧
    (∀ rid s txt, ratingConsistent (review_save_edit db rid s txt)) ∧
    (∀ rid, ratingConsistent (review_delete db rid)) ∧
    (∀ rid r, db.reviews.find? (fun x => x.id == rid) = some r →
      reviewsOf db.reviews r.titleId = [r] →
      ∀ t ∈ (review_delete db rid).titles, t.id = r.titleId →
        t.rating = none) := by
  refine ⟨fun r => ratingConsistent_save_new db r h,
          fun rid s txt => ratingConsistent_save_edit db rid s txt h hu,
          fun rid => ratingConsistent_delete db rid h hu,
          fun rid r hf hlast t ht htid => ?_⟩
  have hrid : r.id = rid := by simpa using List.find?_some hf
  have hcons := ratingConsistent_delete db rid h hu
  have := hcons t ht
  rw [this, htid]
  unfold review_delete at ht ⊢
  rw [hf] at ht ⊢
  show Option.map ratFloor
      (avgScore (reviewsOf (db.reviews.filter (fun x => x.id != rid)) r.titleId))
      = none
  rw [reviewsOf_filter_comm, hlast]
  have : (r.id != rid) = false := by simp [hrid]
  simp [List.filter_cons, this, avgScore]

/-- C1 witness: the amended consistency theorem applied to the concrete
two-review state, adding a third review. -/
theorem C1_rating_consistency_witness :
    ratingConsistent (review_save_new exDb exR3) :=
  (C1_rating_consistency exDb
    (by simp only [ratingConsistent, avgScore_map_ratFloor]; decide)
    (by simp only [reviewIdsUnique]; decide)).1 exR3

/-- C2, evaluation of the code at the failing input: review creation
through the API raises an AttributeError inside ReviewSerializer.validate
(self.instance is None on create) before any duplicate check runs, both
for a first review by a user with no prior review on the title and for a
duplicate attempt by an author who already has one, so the second attempt
does not fail with the duplicate-review error the claim promises.  The
unique_together storage constraint itself is present in the model. -/
theorem C2_code_eval :
    api_create_review exDb 1 exU3 3 8 "mid" = .error .internalTypeError ∧
    api_create_review exDb 1 exU1 3 8 "again" = .error .internalTypeError ∧
    ApiError.internalTypeError ≠ ApiError.duplicateReview :=
  ⟨rfl, rfl, by decide⟩

/-- C3, evaluation of the code at the failing input: the review mutation
permission list contains the IsAuthorOrModerPermission class object
instead of an instance, so every review update and delete raises a
TypeError — the author of the review is not allowed to update it, and a
moderator is not allowed to delete a review of another user.  Even with both
entries instantiated, the conjunction with IsOwnerOrReadOnly denies the
moderator. -/
theorem C3_code_eval :
    api_patch_review exDb exU1 1 9 "upd" = .error .internalTypeError ∧
    api_destroy_review exDb exModer 1 = .error .internalTypeError ∧
    checkObjPerms [PermEntry.authorOrModerInst, PermEntry.ownerOrReadOnlyInst]
      false exModer exR1.authorId = .error .permissionDenied :=
  ⟨rfl, rfl, rfl⟩

/-- C4, evaluation of the code at the failing input: a review with score
11 passes the only score validation present on the write path (the bound
derived from the bare PositiveSmallIntegerField) and is persisted by
Review.save, while the validate_score of the repository — attached to no field
— would have rejected it. -/
theorem C4_code_eval :
    scoreFieldOk 11 = true ∧
    (review_save_new exDb exR11).reviews = [exR1, exR2, exR11] ∧
    validate_score 11 = .error .invalidValue :=
  ⟨rfl, rfl, rfl⟩

/-- C5, counterexample to the claim as stated.  On a title with two
reviews scoring 7 and 8 (stored rating 7, the truncated mean of 15/2),
updating the first review from score 7 to score 8 moves the stored rating
from 7 to 8, a change of 1, while the claim predicts a change of
(8 - 7) / 2 = 1/2: the stored integer rating cannot move by a
non-integral amount. -/
theorem C5_counterexample :
    exDb.titles.map Title.rating = [some 7] ∧
    (review_save_edit exDb 1 8 "good").titles.map Title.rating = [some 8] ∧
    (reviewsOf exDb.reviews 1).length = 2 ∧
    ¬ (((8 : Int) : ℚ) - ((7 : Int) : ℚ)
        = (((8 : ℕ) : ℚ) - ((7 : ℕ) : ℚ)) / 2) := by
  refine ⟨rfl, ?_, rfl, by norm_num⟩
  simp only [review_save_edit, recompute, Title.compute_rating,
    avgScore_map_ratFloor]
  decide

/-- C5, amended: updating the score of one review from s1 to s2 on a title
with n attached reviews, attaching or removing none, changes the exact
arithmetic mean of the title by (s2 - s1) / n, and the stored integer
rating of the title becomes the truncation of that new mean. -/
theorem C5_score_update (db : DB) (hu : reviewIdsUnique db)
    (rid : Nat) (r : Review)
    (hf : db.reviews.find? (fun x => x.id == rid) = some r)
    (s2 : Nat) (txt : String) (q : ℚ)
    (hq : avgScore (reviewsOf db.reviews r.titleId) = some q) :
    avgScore (reviewsOf (review_save_edit db rid s2 txt).reviews r.titleId)
      = some (q + ((s2 : ℚ) - (r.score : ℚ))
          / ((reviewsOf db.reviews r.titleId).length : ℚ)) ∧
    ∀ t ∈ (review_save_edit db rid s2 txt).titles, t.id = r.titleId →
      t.rating = some (ratFloor (q + ((s2 : ℚ) - (r.score : ℚ))
          / ((reviewsOf db.reviews r.titleId).length : ℚ))) := by
  have hrmem : r ∈ db.reviews := List.mem_of_find?_eq_some hf
  have hrid : r.id = rid := by simpa using List.find?_some hf
  set upd : Review → Review :=
    fun x => if x.id == rid then { x with score := s2, text := txt } else x
    with hupd
  have hstep : review_save_edit db rid s2 txt
      = recompute { db with reviews := db.reviews.map upd } r.titleId := by
    unfold review_save_edit
    rw [hf]
  set l := reviewsOf db.reviews r.titleId with hl
  have hrl : r ∈ l := mem_reviewsOf.2 ⟨hrmem, rfl⟩
  have hlne : l ≠ [] := List.ne_nil_of_mem hrl
  have hlnodup : (l.map Review.id).Nodup := by
    have hsub : (l.map Review.id).Sublist (db.reviews.map Review.id) := by
      rw [hl]
      exact (List.filter_sublist db.reviews).map Review.id
    exact hsub.nodup hu
  have hlnd : l.Nodup := hlnodup.of_map
  have hmap : reviewsOf (db.reviews.map upd) r.titleId = l.map upd := by
    rw [hl]
    exact reviewsOf_map_keep_title _ _
      (fun x => by rw [hupd]; dsimp only; split <;> rfl) _
  obtain ⟨u, v, hluv⟩ := List.append_of_mem hrl
  have hrnotu : r ∉ u := by
    intro hru
    have hd := List.disjoint_of_nodup_append (hluv ▸ hlnd)
    exact hd hru (List.mem_cons_self r v)
  have hrnotv : r ∉ v := by
    have hcons : (r :: v).Nodup := List.Nodup.of_append_right (hluv ▸ hlnd)
    exact (List.nodup_cons.1 hcons).1
  have hothers : ∀ x ∈ l, x.id = rid → x = r := fun x hx hxid =>
    List.inj_on_of_nodup_map hlnodup hx hrl (hxid.trans hrid.symm)
  have hfixu : ∀ x ∈ u, upd x = x := by
    intro x hx
    have hxl : x ∈ l := hluv ▸ List.mem_append_left _ hx
    have hxid : x.id ≠ rid := by
      intro hh
      refine hrnotu ?_
      rw [← hothers x hxl hh]
      exact hx
    rw [hupd]
    dsimp only
    rw [if_neg (by simpa using hxid)]
  have hfixv : ∀ x ∈ v, upd x = x := by
    intro x hx
    have hxl : x ∈ l := hluv ▸ List.mem_append_right _ (List.mem_cons_of_mem r hx)
    have hxid : x.id ≠ rid := by
      intro hh
      refine hrnotv ?_
      rw [← hothers x hxl hh]
      exact hx
    rw [hupd]
    dsimp only
    rw [if_neg (by simpa using hxid)]
  have hmapu : u.map upd = u := (List.map_congr_left hfixu).trans (List.map_id' u)
  have hmapv : v.map upd = v := (List.map_congr_left hfixv).trans (List.map_id' v)
  have hupdr : upd r = { r with score := s2, text := txt } := by
    rw [hupd]
    dsimp only
    rw [if_pos (by simpa using hrid)]
  have hlmap : l.map upd = u ++ { r with score := s2, text := txt } :: v := by
    rw [hluv, List.map_append, List.map_cons, hmapu, hmapv, hupdr]
  have hsum : ((l.map upd).map (fun x => (x.score : ℚ))).sum
      = (l.map (fun x => (x.score : ℚ))).sum - (r.score : ℚ) + (s2 : ℚ) := by
    rw [hlmap]
    conv_rhs => rw [hluv]
    simp only [List.map_append, List.map_cons, List.sum_append, List.sum_cons]
    ring
  have hlen : (l.map upd).length = l.length := List.length_map l upd
  have hlemp : l.isEmpty = false := by
    cases hll : l with
    | nil => exact absurd hll hlne
    | cons a m => rfl
  have hqv : (l.map (fun x => (x.score : ℚ))).sum / (l.length : ℚ) = q := by
    unfold avgScore at hq
    rw [if_neg (by simp [hlemp])] at hq
    simpa using hq
  have hn0 : (l.length : ℚ) ≠ 0 := by
    have hlz : l.length ≠ 0 := by
      cases hll : l with
      | nil => exact absurd hll hlne
      | cons a m => simp
    exact_mod_cast hlz
  have hlemp2 : (l.map upd).isEmpty = false := by
    cases hll : l with
    | nil => exact absurd hll hlne
    | cons a m => rfl
  have hnew : avgScore (l.map upd)
      = some (q + ((s2 : ℚ) - (r.score : ℚ)) / (l.length : ℚ)) := by
    unfold avgScore
    rw [if_neg (by simp [hlemp2])]
    congr 1
    rw [hsum, hlen, ← hqv]
    field_simp
    ring
  constructor
  · rw [hstep]
    show avgScore (reviewsOf (db.reviews.map upd) r.titleId) = _
    rw [hmap, hnew]
  · intro t ht htid
    rw [hstep] at ht
    simp only [recompute] at ht
    obtain ⟨t0, ht0, rfl⟩ := List.mem_map.1 ht
    by_cases hc : (t0.id == r.titleId) = true
    · have hid0 : t0.id = r.titleId := by simpa using hc
      show (if (t0.id == r.titleId) = true
          then t0.compute_rating (db.reviews.map upd) else t0).rating = _
      rw [if_pos hc]
      show Option.map ratFloor
          (avgScore (reviewsOf (db.reviews.map upd) t0.id)) = _
      rw [hid0, hmap, hnew]
      rfl
    · exfalso
      have hne2 : t0.id ≠ r.titleId := by simpa using hc
      apply hne2
      have heq : (if (t0.id == r.titleId) = true
          then t0.compute_rating (db.reviews.map upd) else t0) = t0 := if_neg hc
      calc t0.id = (if (t0.id == r.titleId) = true
            then t0.compute_rating (db.reviews.map upd) else t0).id :=
              (congrArg Title.id heq).symm
        _ = r.titleId := htid

/-- C5 witness: the amended update law applied to the concrete two-review
state, updating review 1 from score 7 to score 8. -/
theorem C5_score_update_witness :
    avgScore (reviewsOf (review_save_edit exDb 1 8 "good").reviews exR1.titleId)
      = some ((15 / 2 : ℚ) + (((8 : ℕ) : ℚ) - (exR1.score : ℚ))
          / ((reviewsOf exDb.reviews exR1.titleId).length : ℚ)) :=
  (C5_score_update exDb (by simp only [reviewIdsUnique]; decide) 1 exR1 rfl 8
    "good" (15 / 2 : ℚ)
    (by rw [show reviewsOf exDb.reviews exR1.titleId = [exR1, exR2] from rfl]
        simp [avgScore, exR1, exR2]
        norm_num)).1

/-- C6: deleting a title removes every review attached to it and every
comment attached to those reviews through the cascade, and leaves no
orphaned row: referential integrity is preserved, no surviving review
references the deleted title, and no surviving comment references a
review that was attached to the deleted title. -/
theorem C6_title_cascade (db : DB) (tid : Nat) (h : refIntact db) :
    refIntact (delete_title db tid) ∧
    (∀ t ∈ (delete_title db tid).titles, t.id ≠ tid) ∧
    (∀ r ∈ (delete_title db tid).reviews, r.titleId ≠ tid) ∧
    (∀ c ∈ (delete_title db tid).comments, ∀ r ∈ db.reviews,
      r.id = c.reviewId → r.titleId ≠ tid) := by
  obtain ⟨h1, h2⟩ := h
  refine ⟨⟨?_, ?_⟩, ?_, ?_, ?_⟩
  · intro r hr
    obtain ⟨hrl, hcond⟩ := List.mem_filter.1 hr
    have hne : r.titleId ≠ tid := by simpa using hcond
    obtain ⟨t, ht, htid⟩ := h1 r hrl
    exact ⟨t, List.mem_filter.2 ⟨ht, by rw [htid]; simpa using hne⟩, htid⟩
  · intro c hc
    obtain ⟨hcl, hcond⟩ := List.mem_filter.1 hc
    have hany : ∀ x ∈ db.reviews, ¬(x.id = c.reviewId ∧ x.titleId = tid) := by
      simpa using hcond
    obtain ⟨r0, hr0, hr0id⟩ := h2 c hcl
    have hr0t : r0.titleId ≠ tid := fun htt => hany r0 hr0 ⟨hr0id, htt⟩
    exact ⟨r0, List.mem_filter.2 ⟨hr0, by simpa using hr0t⟩, hr0id⟩
  · intro t ht
    have := (List.mem_filter.1 ht).2
    simpa using this
  · intro r hr
    have := (List.mem_filter.1 hr).2
    simpa using this
  · intro c hc r hr hid
    obtain ⟨hcl, hcond⟩ := List.mem_filter.1 hc
    have hany : ∀ x ∈ db.reviews, ¬(x.id = c.reviewId ∧ x.titleId = tid) := by
      simpa using hcond
    exact fun htt => hany r hr ⟨hid, htt⟩

/-- C6 witness: the cascade theorem applied to the Scenario D state (one
title, three reviews, five comments): the result keeps referential
integrity. -/
theorem C6_title_cascade_witness :
    refIntact (delete_title exDbD 1) :=
  (C6_title_cascade exDbD 1
    (by simp only [refIntact]; exact ⟨by decide, by decide⟩)).1

/-- C7, evaluation of the code at the failing input: a title with year
3000 passes the only year validation present on the write path (the
nonnegativity of the bare PositiveIntegerField) and is persisted, while
the repository's validate_year — attached to no field — would have
rejected it against the current year 2026. -/
theorem C7_code_eval :
    yearFieldOk 3000 = true ∧
    title_create_checked exDb0 2 exFutureInp
      = .ok (title_create exDb0 2 exFutureInp) ∧
    (title_create exDb0 2 exFutureInp).titles.map Title.year = [1965, 3000] ∧
    validate_year 2026 3000 = .error .invalidValue :=
  ⟨rfl, rfl, rfl, rfl⟩

/-- C8: a client-supplied rating value is ignored on title create and
update — the result is independent of the rating field of the request
body, a created row stores a null rating, and an update leaves every
stored rating unchanged; the rating column is only ever written by the
review-driven recomputation. -/
theorem C8_rating_not_client_writable (db : DB) (tid : Nat)
    (inp : TitleInput) (q : Option ℚ) :
    title_create db tid { inp with rating := q } = title_create db tid inp ∧
    title_update db tid { inp with rating := q } = title_update db tid inp ∧
    (title_create db tid inp).titles = db.titles ++
      [{ id := tid, name := inp.name, year := inp.year, rating := none,
         description := inp.description, category := inp.category }] ∧
    (title_update db tid inp).titles.map Title.rating
      = db.titles.map Title.rating := by
  refine ⟨rfl, rfl, rfl, ?_⟩
  simp only [title_update, List.map_map]
  refine List.map_congr_left (fun t ht => ?_)
  simp only [Function.comp]
  split <;> rfl

/-- C9: rating recomputation is idempotent — recomputing a title twice in
a row equals recomputing it once — and saving a review with an unchanged
score (a text-only edit) leaves the titles table, every stored rating
included, exactly as it was. -/
theorem C9_recompute_idempotent (db : DB) (hc : ratingConsistent db)
    (hu : reviewIdsUnique db) :
    (∀ tid, recompute (recompute db tid) tid = recompute db tid) ∧
    (∀ rid r txt, db.reviews.find? (fun x => x.id == rid) = some r →
      (review_save_edit db rid r.score txt).titles = db.titles) := by
  constructor
  · intro tid
    have hmm : (db.titles.map (fun t =>
          if (t.id == tid) = true then t.compute_rating db.reviews else t)).map
          (fun t => if (t.id == tid) = true then t.compute_rating db.reviews else t)
        = db.titles.map (fun t =>
          if (t.id == tid) = true then t.compute_rating db.reviews else t) := by
      rw [List.map_map]
      refine List.map_congr_left (fun t ht => ?_)
      simp only [Function.comp]
      by_cases h : (t.id == tid) = true
      · rw [if_pos h]
        dsimp only [Title.compute_rating]
        rw [if_pos h]
      · rw [if_neg h, if_neg h]
    exact congrArg (fun ts => DB.mk ts db.reviews db.comments) hmm
  · intro rid r txt hf
    have hrmem : r ∈ db.reviews := List.mem_of_find?_eq_some hf
    have hrid : r.id = rid := by simpa using List.find?_some hf
    unfold review_save_edit
    rw [hf]
    simp only [recompute]
    refine (List.map_congr_left (fun t ht => ?_)).trans (List.map_id' db.titles)
    by_cases h : (t.id == r.titleId) = true
    · rw [if_pos h]
      have h1 : reviewsOf (db.reviews.map (fun x =>
            if (x.id == rid) = true
            then { x with score := r.score, text := txt } else x)) t.id
          = (reviewsOf db.reviews t.id).map (fun x =>
            if (x.id == rid) = true
            then { x with score := r.score, text := txt } else x) :=
        reviewsOf_map_keep_title _ _ (fun x => by split <;> rfl) _
      have h2 : ((reviewsOf db.reviews t.id).map (fun x =>
            if (x.id == rid) = true
            then { x with score := r.score, text := txt } else x)).map
            (fun x => x.score)
          = (reviewsOf db.reviews t.id).map (fun x => x.score) := by
        rw [List.map_map]
        refine List.map_congr_left (fun x hx => ?_)
        simp only [Function.comp]
        obtain ⟨hxl, hxt⟩ := mem_reviewsOf.1 hx
        by_cases hxr : (x.id == rid) = true
        · have hxeq : x = r :=
            eq_of_same_id hu hxl hrmem ((by simpa using hxr : x.id = rid).trans hrid.symm)
          rw [if_pos hxr]
          show r.score = x.score
          rw [hxeq]
        · rw [if_neg hxr]
      have h3 : avgScore (reviewsOf (db.reviews.map (fun x =>
            if (x.id == rid) = true
            then { x with score := r.score, text := txt } else x)) t.id)
          = avgScore (reviewsOf db.reviews t.id) := by
        rw [h1]
        exact avgScore_congr _ _ h2
      show t.compute_rating _ = t
      dsimp only [Title.compute_rating]
      rw [h3, ← hc t ht]
    · rw [if_neg h]

/-- C9 witness: idempotence applied to the concrete two-review state. -/
theorem C9_recompute_idempotent_witness :
    recompute (recompute exDb 1) 1 = recompute exDb 1 :=
  (C9_recompute_idempotent exDb
    (by simp only [ratingConsistent, avgScore_map_ratFloor]; decide)
    (by simp only [reviewIdsUnique]; decide)).1 1

/-- C10: deleting a user cascade-deletes every review and comment they
authored, and the cascade bypasses the overridden Review.delete: the
titles table is completely untouched, so each affected title keeps its
previous stored rating instead of the mean of the surviving reviews —
concretely, after deleting user 1 from the two-review state the stored
rating is still 7 while recomputing over the surviving review would store
8. -/
theorem C10_user_cascade (db : DB) (uid : Nat) :
    (delete_user_cascade db uid).titles = db.titles ∧
    (∀ r ∈ (delete_user_cascade db uid).reviews, r.authorId ≠ uid) ∧
    (∀ c ∈ (delete_user_cascade db uid).comments, c.authorId ≠ uid) ∧
    ((delete_user_cascade exDb 1).titles.map Title.rating = [some 7] ∧
     (avgScore (reviewsOf (delete_user_cascade exDb 1).reviews 1)).map ratFloor
       = some 8) := by
  refine ⟨rfl, ?_, ?_, rfl, ?_⟩
  · intro r hr
    have := (List.mem_filter.1 hr).2
    simpa using this
  · intro c hc
    have hand := (List.mem_filter.1 hc).2
    rw [Bool.and_eq_true] at hand
    simpa using hand.1
  · rw [avgScore_map_ratFloor]
    decide

/-- C10 witness: the cascade applied to the concrete two-review state
leaves the titles table unchanged. -/
theorem C10_user_cascade_witness :
    (delete_user_cascade exDb 1).titles = exDb.titles :=
  (C10_user_cascade exDb 1).1

end YamDb
